import Mathlib

/-!
Verification of `hyt-read.c` (hygrochip-linux): an I2C humidity/temperature
sensor reader.  The C program is embedded shallowly: the pure frame decoder
becomes a function on bytes with C `float` arithmetic modelled exactly over
`ℚ`; the effectful sensor transaction, descriptor-file comparison, `strtol`
based address parsing and the `getopt` option loop become explicit functions
over small models of their inputs (device behaviour, file contents, argument
sequences).
-/

namespace HytRead

/-- One byte, the element type of the sensor frame (`unsigned char` in C). -/
abbrev Byte := Fin 256

/-- `struct reading` from hyt-read.c; the C `float` fields are modelled as
exact rationals. -/
structure Reading where
  humidity : ℚ
  temperature : ℚ
deriving DecidableEq

/-- The 14-bit raw humidity field: `(data[0] & 0x3f) << 8 | data[1]`
(hyt-read.c line 156). -/
def humidityRaw (b0 b1 : Byte) : ℕ :=
  ((b0.val &&& 0x3f) <<< 8) ||| b1.val

/-- The masked raw temperature field: `data[2] << 8 | (data[3] & 0xfc)`
(hyt-read.c line 157). -/
def temperatureRaw (b2 b3 : Byte) : ℕ :=
  (b2.val <<< 8) ||| (b3.val &&& 0xfc)

/-- The frame decoder of `take_reading` (hyt-read.c lines 156-157):
`humidity = raw * (100.0 / 0x3fff)`,
`temperature = raw * (165.0 / 0xfffc) - 40`. -/
def decode (b0 b1 b2 b3 : Byte) : Reading :=
  { humidity := (humidityRaw b0 b1 : ℚ) * (100 / 0x3fff)
    temperature := (temperatureRaw b2 b3 : ℚ) * (165 / 0xfffc) - 40 }

/-- The decoder as the spec's §4.4 words give it: humidity raw is
`(b0 & 0x3f) << 8 | b1` scaled by `100.0 / 16383.0`; temperature is
`(b2 << 8) | (b3 & 0xfc)` scaled by `165.0 / 65532.0`, minus 40. -/
def decodeSpec (b0 b1 b2 b3 : Byte) : Reading :=
  { humidity := ((((b0.val &&& 0x3f) <<< 8) ||| b1.val : ℕ) : ℚ) * (100 / 16383)
    temperature := (((b2.val <<< 8) ||| (b3.val &&& 0xfc) : ℕ) : ℚ) * (165 / 65532) - 40 }

theorem humidityRaw_eq (b0 b1 : Byte) :
    humidityRaw b0 b1 = (b0.val &&& 0x3f) * 256 + b1.val := by
  have h : b1.val < 2 ^ 8 := b1.isLt
  have h256 : (2 : ℕ) ^ 8 = 256 := by norm_num
  unfold humidityRaw
  rw [Nat.shiftLeft_eq, Nat.mul_comm, ← Nat.mul_add_lt_is_or h, h256, Nat.mul_comm]

theorem temperatureRaw_eq (b2 b3 : Byte) :
    temperatureRaw b2 b3 = b2.val * 256 + (b3.val &&& 0xfc) := by
  have h : b3.val &&& 0xfc < 2 ^ 8 :=
    Nat.lt_of_le_of_lt Nat.and_le_right (by norm_num)
  have h256 : (2 : ℕ) ^ 8 = 256 := by norm_num
  unfold temperatureRaw
  rw [Nat.shiftLeft_eq, Nat.mul_comm, ← Nat.mul_add_lt_is_or h, h256, Nat.mul_comm]

theorem humidityRaw_le (b0 b1 : Byte) : humidityRaw b0 b1 ≤ 0x3fff := by
  rw [humidityRaw_eq]
  have h1 : b0.val &&& 0x3f ≤ 0x3f := Nat.and_le_right
  have h2 : b1.val ≤ 255 := Nat.le_of_lt_succ b1.isLt
  omega

theorem temperatureRaw_le (b2 b3 : Byte) : temperatureRaw b2 b3 ≤ 0xfffc := by
  rw [temperatureRaw_eq]
  have h1 : b3.val &&& 0xfc ≤ 0xfc := Nat.and_le_right
  have h2 : b2.val ≤ 255 := Nat.le_of_lt_succ b2.isLt
  omega

/-! ## Sensor transaction (`take_reading`, hyt-read.c lines 123-158) -/

/-- The fatal conditions of the sensor transaction: `die_errno` on a failed
write or read (`IoError`), and the short-read exit (`ShortRead`).  Every
error path calls `exit(1)`. -/
inductive TransactionError where
  | ioError
  | shortRead
deriving DecidableEq

/-- A model of the bound i2c device as `take_reading` observes it:
the return value of `write(fd, buf, 1)` as a function of the buffer
contents sent, the return value of `read(fd, data, 4)`, and the four
bytes the read deposits when it succeeds. -/
structure Device where
  writeRes : List ℕ → Int
  readRes : Int
  readData : Byte × Byte × Byte × Byte

/-- `take_reading` (hyt-read.c lines 123-158): writes the single zero byte
`data[0] = 0` as the start-measurement command, checks only `sz < 0` on the
write, sleeps 60 ms (no observable effect here), reads 4 bytes, treats a
negative read result as `IoError`, a result below 4 as `ShortRead`, and
otherwise decodes the frame. -/
def take_reading (d : Device) : Except TransactionError Reading :=
  if d.writeRes [0] < 0 then
    .error .ioError
  else if d.readRes < 0 then
    .error .ioError
  else if d.readRes < 4 then
    .error .shortRead
  else
    match d.readData with
    | (b0, b1, b2, b3) => .ok (decode b0 b1 b2 b3)

/-- A device whose write transfers 0 bytes (a short write) and whose read
then delivers the 4-byte zero frame. -/
def shortWriteDevice : Device :=
  { writeRes := fun _ => 0, readRes := 4, readData := (0, 0, 0, 0) }

/-- A device whose write fails with a negative return. -/
def failWriteDevice : Device :=
  { writeRes := fun _ => -1, readRes := 4, readData := (0, 0, 0, 0) }

/-- A device that accepts the write but returns only 2 bytes on read. -/
def shortReadDevice : Device :=
  { writeRes := fun _ => 1, readRes := 2, readData := (0, 0, 0, 0) }

/-- A device that accepts the write and delivers a full 4-byte frame. -/
def okDevice : Device :=
  { writeRes := fun _ => 1, readRes := 4, readData := (0, 0, 0, 0) }

/-! ## Bus locator descriptor comparison (`name_file_matches`,
hyt-read.c lines 34-66) -/

/-- `name_file_matches` on file contents: with `len = strlen(want)`, the C
code reads `got = read(fd, buf, len + 2)` bytes — for a regular file the
first `min (len+2) (length content)` bytes — accepts when
`got == len || (got == len+1 && buf[len] == newline)`, and then returns
`memcmp(want, buf, len) == 0`. -/
def name_file_matches (content want : List Char) : Bool :=
  let len := want.length
  let buf := content.take (len + 2)
  let got := buf.length
  (got == len || (got == len + 1 && buf.getD len ' ' == '\n'))
    && (buf.take len == want)

/-! ## Slave-address parsing (`parse_i2c_slave_address`,
hyt-read.c lines 181-197) -/

/-- C `isspace` in the default locale: space, tab, newline, vertical tab,
form feed, carriage return. -/
def isSpaceC (c : Char) : Bool :=
  c == ' ' || c == '\t' || c == '\n' || c == Char.ofNat 11 ||
    c == Char.ofNat 12 || c == '\r'

/-- Value of a character as a digit up to base 16, if it is one. -/
def hexDigitVal (c : Char) : Option ℕ :=
  if '0' ≤ c && c ≤ '9' then some (c.toNat - 48)
  else if 'a' ≤ c && c ≤ 'f' then some (c.toNat - 87)
  else if 'A' ≤ c && c ≤ 'F' then some (c.toNat - 55)
  else none

/-- Value of `c` as a digit in `base` (8, 10 or 16), if it is one. -/
def digitInBase (base : ℕ) (c : Char) : Option ℕ :=
  match hexDigitVal c with
  | some v => if v < base then some v else none
  | none => none

/-- Greedily consume digits of `base` from the front of `l`, returning the
accumulated value and the number of characters consumed. -/
def takeDigits (base : ℕ) : List Char → ℕ → ℕ → ℕ × ℕ
  | [], acc, cnt => (acc, cnt)
  | c :: rest, acc, cnt =>
    match digitInBase base c with
    | some v => takeDigits base rest (acc * base + v) (cnt + 1)
    | none => (acc, cnt)

/-- Negate when `neg` is set. -/
def applySign (neg : Bool) (v : ℕ) : Int :=
  if neg then -(v : Int) else (v : Int)

/-- The base-detection and digit-consumption core of C `strtol(s, _, 0)`
after whitespace and sign: `0x`/`0X` followed by a hex digit selects base
16, a leading `0` selects base 8 (the zero itself counting as a consumed
digit), anything else base 10.  Returns the value and the total number of
characters consumed from the original string, which is 0 when no digits
were consumed (`endptr == s`). -/
def strtolCore (neg : Bool) (preLen : ℕ) (r : List Char) : Int × ℕ :=
  let hex : Bool :=
    match r with
    | c0 :: c1 :: c2 :: _ =>
      c0 == '0' && (c1 == 'x' || c1 == 'X') && (digitInBase 16 c2).isSome
    | _ => false
  if hex then
    let p := takeDigits 16 (r.drop 2) 0 0
    (applySign neg p.1, preLen + 2 + p.2)
  else if r.headD ' ' == '0' then
    let p := takeDigits 8 r 0 0
    (applySign neg p.1, preLen + p.2)
  else
    let p := takeDigits 10 r 0 0
    if p.2 = 0 then (0, 0) else (applySign neg p.1, preLen + p.2)

/-- C `strtol(s, &endptr, 0)`: skip whitespace, optional sign, then
`strtolCore`.  Result is the parsed value and `endptr - s` (0 when no
digits were found).  `LONG_MAX`/`LONG_MIN` clamping on overflow is not
modelled: the caller only compares against the tiny range `[0x3, 0x77]`,
and a clamped huge value fails that comparison exactly as the unclamped
one does. -/
def strtol0 (s : List Char) : Int × ℕ :=
  let r1 := s.dropWhile isSpaceC
  let wsLen := s.length - r1.length
  match r1 with
  | '-' :: r => strtolCore true (wsLen + 1) r
  | '+' :: r => strtolCore false (wsLen + 1) r
  | r => strtolCore false wsLen r

/-- The two fatal exits of `parse_i2c_slave_address`: `"bad slave address"`
when `endptr == s || *endptr != 0`, and `"outside legal range"` when the
value is below `0x3` or above `0x77`. -/
inductive AddrError where
  | badAddress
  | outOfRange
deriving DecidableEq

/-- `parse_i2c_slave_address` (hyt-read.c lines 181-197): `strtol` base 0,
reject when nothing was consumed or a non-NUL byte follows the number,
reject values outside `[0x3, 0x77]`, otherwise return the value. -/
def parse_i2c_slave_address (s : List Char) : Except AddrError Int :=
  if (strtol0 s).2 = 0 ∨ (strtol0 s).2 ≠ s.length then .error .badAddress
  else if (strtol0 s).1 < 0x3 ∨ (strtol0 s).1 > 0x77 then .error .outOfRange
  else .ok (strtol0 s).1

/-- The spec's input grammar for `-a` (§6: "decimal or prefixed hex"):
a nonempty all-digit string read in base 10, or `0x`/`0X` followed by a
nonempty hex-digit string read in base 16. -/
def specCleanInt (s : List Char) : Option Int :=
  match s with
  | '0' :: x :: rest =>
    if (x == 'x' || x == 'X') && rest ≠ [] && rest.all (fun c => (digitInBase 16 c).isSome)
    then some ((takeDigits 16 rest 0 0).1 : Int)
    else if s.all (fun c => (digitInBase 10 c).isSome)
    then some ((takeDigits 10 s 0 0).1 : Int)
    else none
  | _ =>
    if s ≠ [] && s.all (fun c => (digitInBase 10 c).isSome)
    then some ((takeDigits 10 s 0 0).1 : Int)
    else none

/-- C `atoi`, used for the `-i` interval option: whitespace, optional sign,
decimal digits, no error reporting. -/
def atoiC (s : List Char) : Int :=
  let r1 := s.dropWhile isSpaceC
  match r1 with
  | '-' :: r => -(((takeDigits 10 r 0 0).1 : Int))
  | '+' :: r => ((takeDigits 10 r 0 0).1 : Int)
  | r => ((takeDigits 10 r 0 0).1 : Int)

/-! ## The option-processing loop of `main` (hyt-read.c lines 205-244)

The `while (getopt(...))` loop is modelled on the sequence of options as
`getopt` delivers them for the option string `"HTd:b:i:a:h"`.  Device opens
are modelled as succeeding with the positive descriptor 3 (a process with
the standard descriptors open never receives 0 from `open`); every fatal
path (`usage`, `both_b_and_d`, a bad `-a` argument) calls `exit(1)` and is
modelled as `none`. -/

/-- One option as returned by `getopt` with its argument. -/
inductive Arg where
  | optH
  | optT
  | optb (name : List Char)
  | optd (path : List Char)
  | opti (s : List Char)
  | opta (s : List Char)
  | opth
deriving DecidableEq

/-- Observable actions of the option loop, in program order: opening the
bus resolved from a `-b` name, opening a `-d` device file, the
`"Cannot use both -d and -b options"` message, the usage text, and the
message of a failed `-a` parse. -/
inductive Event where
  | openBus (name : List Char)
  | openDev (path : List Char)
  | conflictMsg
  | usageMsg
  | addrMsg
deriving DecidableEq

/-- The locals of `main` that the option loop mutates. -/
structure OptState where
  fd : Nat
  interval : Int
  ptemp : Bool
  phum : Bool
  slave : Int
deriving DecidableEq

/-- `main`'s locals before the loop: `fd = 0`, `interval = 0`,
`ptemp = phum = 0`, `slave = 0x28`. -/
def initState : OptState :=
  { fd := 0, interval := 0, ptemp := false, phum := false, slave := 0x28 }

/-- The descriptor a successful open yields in this model. -/
def openedFd : Nat := 3

/-- The `getopt` switch of `main`, one case per option: `-H`/`-T` set
flags; `-b` and `-d` first check `if (fd) both_b_and_d();` — which prints
the conflict message, the usage text and exits 1 — and otherwise open the
device, making `fd` nonzero; `-i` runs `atoi`; `-a` runs
`parse_i2c_slave_address`, whose failure exits 1; `-h` prints usage and
exits 1.  Returns the events emitted in order, and the final state or
`none` for the exit-1 paths. -/
def procOpts : OptState → List Arg → List Event × Option OptState
  | st, [] => ([], some st)
  | st, .optH :: rest => procOpts { st with phum := true } rest
  | st, .optT :: rest => procOpts { st with ptemp := true } rest
  | st, .optb name :: rest =>
    if st.fd ≠ 0 then ([.conflictMsg, .usageMsg], none)
    else
      let p := procOpts { st with fd := openedFd } rest
      (.openBus name :: p.1, p.2)
  | st, .optd path :: rest =>
    if st.fd ≠ 0 then ([.conflictMsg, .usageMsg], none)
    else
      let p := procOpts { st with fd := openedFd } rest
      (.openDev path :: p.1, p.2)
  | st, .opti s :: rest => procOpts { st with interval := atoiC s } rest
  | st, .opta s :: rest =>
    match parse_i2c_slave_address s with
    | .ok n => procOpts { st with slave := n } rest
    | .error _ => ([.addrMsg], none)
  | _, .opth :: _ => ([.usageMsg], none)

/-- The argument sequence contains a `-b` option. -/
def hasOptb : List Arg → Bool
  | [] => false
  | .optb _ :: _ => true
  | _ :: rest => hasOptb rest

/-- The argument sequence contains a `-d` option. -/
def hasOptd : List Arg → Bool
  | [] => false
  | .optd _ :: _ => true
  | _ :: rest => hasOptd rest

/-! ## Theorems -/

/-- C1: for every 4-byte frame the decoder returns
`humidity = ((b0 & 0x3f) << 8 | b1) * (100 / 16383)` and
`temperature = ((b2 << 8) | (b3 & 0xfc)) * (165 / 65532) - 40`, i.e. it
coincides with the reference definition written from the spec's words on
every input; moreover on the all-ones masked frame the divisor 65532
yields exactly temperature 125 (and humidity 100), pinning the constant to
`0xfffc` rather than 16380. -/
theorem c1_decode_eq_decodeSpec :
    (∀ b0 b1 b2 b3 : Byte, decode b0 b1 b2 b3 = decodeSpec b0 b1 b2 b3) ∧
      decode 0x3f 0xff 0xff 0xfc = ⟨100, 125⟩ := by
  constructor
  · intro b0 b1 b2 b3
    rfl
  · have h1 : humidityRaw 0x3f 0xff = 0x3fff := by decide
    have h2 : temperatureRaw 0xff 0xfc = 0xfffc := by decide
    simp only [decode, h1, h2, Reading.mk.injEq]
    norm_num

/-- C2: the status bits do not affect decoding — any two frames that agree
on `b0 & 0x3f`, on `b1`, on `b2` and on `b3 & 0xfc` decode to the same
Reading; changing only the top 2 bits of byte 0 and the bottom 2 bits of
byte 3 is invisible. -/
theorem c2_status_bits_ignored (b0 b0' b1 b2 b3 b3' : Byte)
    (h0 : b0.val &&& 0x3f = b0'.val &&& 0x3f)
    (h3 : b3.val &&& 0xfc = b3'.val &&& 0xfc) :
    decode b0 b1 b2 b3 = decode b0' b1 b2 b3' := by
  simp only [decode, humidityRaw, temperatureRaw, h0, h3]

/-- Witness for C2 at the claim's own frames: decoding
`{0xC0,0x00,0x00,0x03}` equals decoding `{0x00,0x00,0x00,0x00}`. -/
theorem c2_status_bits_ignored_witness :
    decode 0xc0 0x00 0x00 0x03 = decode 0x00 0x00 0x00 0x00 :=
  c2_status_bits_ignored 0xc0 0x00 0x00 0x00 0x03 0x00 (by decide) (by decide)

/-- C3 counterexample: the frame `{0x00,0x00,0xff,0xfc}` decodes to
temperature exactly 125, which is not ≤ 120, so the claimed range
`[-40, 120]` is violated. -/
theorem c3_range_counterexample :
    (decode 0x00 0x00 0xff 0xfc).temperature = 125 ∧
      ¬ (decode 0x00 0x00 0xff 0xfc).temperature ≤ 120 := by
  have h2 : temperatureRaw 0xff 0xfc = 0xfffc := by decide
  simp only [decode, h2]
  norm_num

/-- C3 amended: for every 4-byte frame the decoded humidity lies in
`[0, 100]` and the decoded temperature lies in `[-40, 125]` (the full-scale
raw value 0xfffc scales to exactly 125, not 120). -/
theorem c3_reading_ranges (b0 b1 b2 b3 : Byte) :
    0 ≤ (decode b0 b1 b2 b3).humidity ∧ (decode b0 b1 b2 b3).humidity ≤ 100 ∧
      -40 ≤ (decode b0 b1 b2 b3).temperature ∧
      (decode b0 b1 b2 b3).temperature ≤ 125 := by
  have hh : (humidityRaw b0 b1 : ℚ) ≤ 16383 := by
    exact_mod_cast Nat.cast_le.mpr (humidityRaw_le b0 b1)
  have hh0 : (0 : ℚ) ≤ (humidityRaw b0 b1 : ℚ) := Nat.cast_nonneg _
  have ht : (temperatureRaw b2 b3 : ℚ) ≤ 65532 := by
    exact_mod_cast Nat.cast_le.mpr (temperatureRaw_le b2 b3)
  have ht0 : (0 : ℚ) ≤ (temperatureRaw b2 b3 : ℚ) := Nat.cast_nonneg _
  refine ⟨?_, ?_, ?_, ?_⟩
  · show (0 : ℚ) ≤ (humidityRaw b0 b1 : ℚ) * (100 / 0x3fff)
    positivity
  · show (humidityRaw b0 b1 : ℚ) * (100 / 0x3fff) ≤ 100
    nlinarith
  · show (-40 : ℚ) ≤ (temperatureRaw b2 b3 : ℚ) * (165 / 0xfffc) - 40
    nlinarith
  · show (temperatureRaw b2 b3 : ℚ) * (165 / 0xfffc) - 40 ≤ 125
    nlinarith

/-- C4: the decoder is strictly monotone in each masked raw field — between
two frames sharing their temperature bytes, a strictly larger 14-bit
humidity raw value gives strictly larger humidity, and between two frames
sharing their humidity bytes, a strictly larger masked temperature raw
value gives strictly larger temperature. -/
theorem c4_decode_strict_mono :
    (∀ b0 b1 b0' b1' b2 b3 : Byte, humidityRaw b0 b1 < humidityRaw b0' b1' →
      (decode b0 b1 b2 b3).humidity < (decode b0' b1' b2 b3).humidity) ∧
    (∀ b2 b3 b2' b3' b0 b1 : Byte,
      temperatureRaw b2 b3 < temperatureRaw b2' b3' →
      (decode b0 b1 b2 b3).temperature < (decode b0 b1 b2' b3').temperature) := by
  constructor
  · intro b0 b1 b0' b1' b2 b3 h
    show (humidityRaw b0 b1 : ℚ) * (100 / 0x3fff) <
      (humidityRaw b0' b1' : ℚ) * (100 / 0x3fff)
    have hq : (humidityRaw b0 b1 : ℚ) < (humidityRaw b0' b1' : ℚ) := by
      exact_mod_cast h
    nlinarith
  · intro b2 b3 b2' b3' b0 b1 h
    show (temperatureRaw b2 b3 : ℚ) * (165 / 0xfffc) - 40 <
      (temperatureRaw b2' b3' : ℚ) * (165 / 0xfffc) - 40
    have hq : (temperatureRaw b2 b3 : ℚ) < (temperatureRaw b2' b3' : ℚ) := by
      exact_mod_cast h
    nlinarith

/-- Witness for C4 at concrete frames: raw humidity 0 < 1 gives strictly
larger humidity, raw temperature 0 < 256 gives strictly larger
temperature. -/
theorem c4_decode_strict_mono_witness :
    (decode 0 0 0 0).humidity < (decode 0 1 0 0).humidity ∧
      (decode 0 0 0 0).temperature < (decode 0 0 1 0).temperature :=
  ⟨c4_decode_strict_mono.1 0 0 0 1 0 0 (by decide),
    c4_decode_strict_mono.2 0 0 1 0 0 0 (by decide)⟩

/-- C5 counterexample: on a device whose write transfers 0 bytes (fewer
than 1), the transaction does not raise IoError — the code checks only for
a negative write result — and instead proceeds to the read and produces a
Reading. -/
theorem c5_short_write_counterexample :
    take_reading shortWriteDevice = .ok (decode 0 0 0 0) ∧
      take_reading shortWriteDevice ≠ .error .ioError := by
  constructor
  · rfl
  · simp [take_reading, shortWriteDevice]

/-- C5 amended: the start-measurement step writes the single zero byte, and
a failed write — a negative return value — is fatal (IoError) without
proceeding to the read; a short write of 0 bytes is not detected. -/
theorem c5_failed_write_ioError (d : Device) (h : d.writeRes [0] < 0) :
    take_reading d = .error .ioError := by
  unfold take_reading
  rw [if_pos h]

/-- Witness for C5 at a concrete device whose write returns -1. -/
theorem c5_failed_write_ioError_witness :
    take_reading failWriteDevice = .error .ioError :=
  c5_failed_write_ioError failWriteDevice (by decide)

/-- C6: whenever the write succeeded and the 4-byte read returns a
non-negative count below 4, the transaction fails with the distinct
ShortRead condition (exit 1, no retry, no Reading); and a transaction that
produces a Reading had a read count of exactly 4 (read never returns more
than the 4 bytes requested). -/
theorem c6_short_read :
    (∀ d : Device, 0 ≤ d.writeRes [0] → 0 ≤ d.readRes → d.readRes < 4 →
      take_reading d = .error .shortRead) ∧
    (∀ (d : Device) (r : Reading), d.readRes ≤ 4 → take_reading d = .ok r →
      d.readRes = 4) := by
  constructor
  · intro d hw hr0 hr4
    unfold take_reading
    rw [if_neg (by omega), if_neg (by omega), if_pos hr4]
  · intro d r hle h
    unfold take_reading at h
    by_cases h1 : d.writeRes [0] < 0
    · rw [if_pos h1] at h
      exact absurd h (by simp)
    · rw [if_neg h1] at h
      by_cases h2 : d.readRes < 0
      · rw [if_pos h2] at h
        exact absurd h (by simp)
      · rw [if_neg h2] at h
        by_cases h3 : d.readRes < 4
        · rw [if_pos h3] at h
          exact absurd h (by simp)
        · omega

/-- Witness for C6: a transport yielding only 2 bytes surfaces ShortRead,
and the successful device's read count is exactly 4. -/
theorem c6_short_read_witness :
    take_reading shortReadDevice = .error .shortRead ∧ okDevice.readRes = 4 :=
  ⟨c6_short_read.1 shortReadDevice (by decide) (by decide) (by decide),
    c6_short_read.2 okDevice (decode 0 0 0 0) (by decide) rfl⟩

/-- A content equal to the name always passes the descriptor
comparison. -/
theorem name_file_matches_self (want : List Char) :
    name_file_matches want want = true := by
  simp only [name_file_matches]
  rw [List.take_of_length_le (by omega)]
  simp [List.take_of_length_le]

/-- A content equal to the name followed by a single newline always passes
the descriptor comparison. -/
theorem name_file_matches_trailing_newline (want : List Char) :
    name_file_matches (want ++ ['\n']) want = true := by
  have hlen : (want ++ ['\n']).length = want.length + 1 := by simp
  have h1 : (want ++ ['\n']).getD want.length ' ' = '\n' := by
    rw [List.getD_eq_getElem?_getD, List.getElem?_append_right (Nat.le_refl _)]
    simp
  have h2 : (want ++ ['\n']).take want.length = want := List.take_left' rfl
  simp only [name_file_matches]
  rw [List.take_of_length_le (by simp)]
  simp [hlen, h1, h2]

/-- C7: the descriptor comparison accepts exactly the contents `want` and
`want ++ "\n"` — a content equal to the requested name, or equal to it
followed by a single trailing newline; in particular a descriptor holding
`"bcm.1\n"` matches the name `"bcm.1"`, and every other content is
rejected. -/
theorem c7_name_file_matches_iff :
    (∀ content want : List Char,
      name_file_matches content want = true ↔
        content = want ∨ content = want ++ ['\n']) ∧
      name_file_matches ['b', 'c', 'm', '.', '1', '\n'] ['b', 'c', 'm', '.', '1'] = true := by
  constructor
  · intro content want
    constructor
    · intro h
      simp only [name_file_matches, Bool.and_eq_true, Bool.or_eq_true,
        beq_iff_eq, List.length_take, List.take_take] at h
      obtain ⟨hcond, htake⟩ := h
      rcases hcond with hg | ⟨hg, hnl⟩
      · -- got = len: the content is exactly as long as the name
        have hclen : content.length = want.length := by omega
        rw [List.take_of_length_le (by omega)] at htake
        exact Or.inl htake
      · -- got = len + 1 with a trailing newline
        have hclen : content.length = want.length + 1 := by omega
        have hsplit := List.take_append_drop want.length content
        have hlen1 : (content.drop want.length).length = 1 := by
          rw [List.length_drop]
          omega
        obtain ⟨a, ha⟩ := List.length_eq_one.mp hlen1
        have htk : content.take (want.length + 2) = content :=
          List.take_of_length_le (by omega)
        rw [htk, List.getD_eq_getElem?_getD] at hnl
        have hgetl : content[want.length]? = some a := by
          conv_lhs => rw [← hsplit, ha]
          rw [List.getElem?_append_right (by rw [List.length_take]; omega)]
          have hidx : want.length - (List.take want.length content).length = 0 := by
            rw [List.length_take]
            omega
          rw [hidx]
          rfl
        rw [hgetl] at hnl
        simp only [Option.getD_some] at hnl
        subst hnl
        have hmin : want.length ⊓ (want.length + 2) = want.length := by omega
        rw [hmin] at htake
        refine Or.inr ?_
        rw [← hsplit, ha, htake]
    · intro h
      rcases h with h | h
      · rw [h]
        exact name_file_matches_self want
      · rw [h]
        exact name_file_matches_trailing_newline want
  · rfl

/-- C8 counterexample: the string `"010"` is a clean digit string — under
the spec's "decimal or prefixed hex" interface it denotes 10, which lies in
`[0x03, 0x77]` — yet the parser returns 8, because `strtol` with base 0
reads a leading zero as octal.  So "succeeds returning the numeric value
exactly when the argument parses cleanly as (decimal or prefixed hex)"
fails at this input. -/
theorem c8_octal_counterexample :
    specCleanInt ['0', '1', '0'] = some 10 ∧
      (3 : Int) ≤ 10 ∧ (10 : Int) ≤ 0x77 ∧
      parse_i2c_slave_address ['0', '1', '0'] = .ok 8 ∧ (8 : Int) ≠ 10 := by
  refine ⟨rfl, by norm_num, by norm_num, rfl, by norm_num⟩

/-- C8 amended: slave-address parsing succeeds with value `n` exactly when
`strtol` base 0 (decimal, prefixed hex, or leading-zero octal) consumes at
least one digit and the whole argument, yielding `n`, and `n` lies in
`[0x03, 0x77]`; every other string is a fatal validation error.  In
particular `"0x02"` and `"0x78"` fail with the out-of-range error and
`"0x28"` succeeds with value 40. -/
theorem c8_parse_address :
    (∀ (s : List Char) (n : Int),
      parse_i2c_slave_address s = .ok n ↔
        (strtol0 s).2 ≠ 0 ∧ (strtol0 s).2 = s.length ∧ n = (strtol0 s).1 ∧
          3 ≤ n ∧ n ≤ 0x77) ∧
      parse_i2c_slave_address ['0', 'x', '0', '2'] = .error .outOfRange ∧
      parse_i2c_slave_address ['0', 'x', '7', '8'] = .error .outOfRange ∧
      parse_i2c_slave_address ['0', 'x', '2', '8'] = .ok 40 := by
  refine ⟨?_, rfl, rfl, rfl⟩
  intro s n
  unfold parse_i2c_slave_address
  by_cases h1 : (strtol0 s).2 = 0 ∨ (strtol0 s).2 ≠ s.length
  · rw [if_pos h1]
    constructor
    · intro h
      exact absurd h (by simp)
    · rintro ⟨ha, hb, -⟩
      rcases h1 with h1 | h1
      · exact absurd h1 ha
      · exact absurd hb h1
  · rw [if_neg h1]
    push_neg at h1
    obtain ⟨hne, heq⟩ := h1
    by_cases h2 : (strtol0 s).1 < 3 ∨ (strtol0 s).1 > 0x77
    · rw [if_pos h2]
      constructor
      · intro h
        exact absurd h (by simp)
      · rintro ⟨-, -, hn, h3, h77⟩
        subst hn
        rcases h2 with h2 | h2 <;> omega
    · rw [if_neg h2]
      push_neg at h2
      obtain ⟨h3, h77⟩ := h2
      constructor
      · intro h
        have hv := Except.ok.inj h
        exact ⟨hne, heq, hv.symm, by omega, by omega⟩
      · rintro ⟨-, -, hn, -, -⟩
        rw [hn]

/-- Witness for C8's amended parsing condition at the clean decimal string
`"64"`. -/
theorem c8_parse_address_witness :
    parse_i2c_slave_address ['6', '4'] = .ok 64 :=
  (c8_parse_address.1 ['6', '4'] 64).mpr
    ⟨by decide, by decide, by decide, by decide, by decide⟩

/-- C10: because the parser uses `strtol` with base 0, the leading-zero
string `"010"` is accepted as octal: parsing succeeds with value 8 (which
lies in `[0x03, 0x77]`), not 10. -/
theorem c10_leading_zero_is_octal :
    parse_i2c_slave_address ['0', '1', '0'] = .ok 8 ∧
      (3 : Int) ≤ 8 ∧ (8 : Int) ≤ 0x77 := by
  refine ⟨rfl, by norm_num, by norm_num⟩

/-- Option processing is fatal whenever the remaining options contain both
`-b` and `-d`, or the descriptor is already set and they contain at least
one of the two. -/
theorem procOpts_fatal (args : List Arg) : ∀ st : OptState,
    (hasOptb args = true ∧ hasOptd args = true) ∨
      (st.fd ≠ 0 ∧ (hasOptb args = true ∨ hasOptd args = true)) →
    (procOpts st args).2 = none := by
  induction args with
  | nil =>
    intro st h
    simp [hasOptb, hasOptd] at h
  | cons a rest ih =>
    intro st h
    cases a with
    | optH =>
      apply ih
      simpa [hasOptb, hasOptd] using h
    | optT =>
      apply ih
      simpa [hasOptb, hasOptd] using h
    | optb name =>
      show ((if st.fd ≠ 0 then ([.conflictMsg, .usageMsg], none)
        else
          let p := procOpts { st with fd := openedFd } rest
          (.openBus name :: p.1, p.2) : List Event × Option OptState)).2 = none
      by_cases hfd : st.fd ≠ 0
      · rw [if_pos hfd]
      · rw [if_neg hfd]
        apply ih
        push_neg at hfd
        rcases h with ⟨-, hd⟩ | ⟨hfd', -⟩
        · refine Or.inr ⟨by simp [openedFd], Or.inr ?_⟩
          simpa [hasOptd] using hd
        · exact absurd hfd hfd'
    | optd path =>
      show ((if st.fd ≠ 0 then ([.conflictMsg, .usageMsg], none)
        else
          let p := procOpts { st with fd := openedFd } rest
          (.openDev path :: p.1, p.2) : List Event × Option OptState)).2 = none
      by_cases hfd : st.fd ≠ 0
      · rw [if_pos hfd]
      · rw [if_neg hfd]
        apply ih
        push_neg at hfd
        rcases h with ⟨hb, -⟩ | ⟨hfd', -⟩
        · refine Or.inr ⟨by simp [openedFd], Or.inl ?_⟩
          simpa [hasOptb] using hb
        · exact absurd hfd hfd'
    | opti s =>
      apply ih
      simpa [hasOptb, hasOptd] using h
    | opta s =>
      show ((match parse_i2c_slave_address s with
        | .ok n => procOpts { st with slave := n } rest
        | .error _ => ([.addrMsg], none) : List Event × Option OptState)).2 = none
      cases hp : parse_i2c_slave_address s with
      | ok n =>
        apply ih
        simpa [hasOptb, hasOptd] using h
      | error e => rfl
    | opth => rfl

/-- C9 counterexample: on the command line `-b x -d y` the option loop
opens the bus named by `-b` first and only then, at `-d`, reports the
conflict — the very first observable event is the device open, so the
conflict is not reported before device I/O. -/
theorem c9_open_before_conflict_counterexample :
    procOpts initState [Arg.optb ['x'], Arg.optd ['y']] =
      ([Event.openBus ['x'], Event.conflictMsg, Event.usageMsg], none) ∧
      (procOpts initState [Arg.optb ['x'], Arg.optd ['y']]).1.head? =
        some (Event.openBus ['x']) :=
  ⟨rfl, rfl⟩

/-- C9 amended: every command line supplying both `-b` and `-d` (in either
order) makes option processing terminate the process with status 1 — the
measurement phase is never reached — but the device named by the first of
the two options may already have been opened when the conflict is
reported. -/
theorem c9_both_b_d_fatal (args : List Arg)
    (hb : hasOptb args = true) (hd : hasOptd args = true) :
    (procOpts initState args).2 = none :=
  procOpts_fatal args initState (Or.inl ⟨hb, hd⟩)

/-- Witness for C9's amended claim at the command line `-d y -b x`. -/
theorem c9_both_b_d_fatal_witness :
    (procOpts initState [Arg.optd ['y'], Arg.optb ['x']]).2 = none :=
  c9_both_b_d_fatal [Arg.optd ['y'], Arg.optb ['x']] rfl rfl

end HytRead
